import Mathlib

/-!
# Verification of the rkbeets field-mapping and reconciliation engine

Shallow embedding of the core of the `rkbeets` beets plugin
(`beetsplug/rkbeets/__init__.py`, canonical revision; `beetsplug/rkbeets/core.py`
for the sample-rate transform). Pandas DataFrames are modelled as Lean lists of
rows; a DataFrame index is modelled by a key projection out of the row type.
Missing values (NaN / None) are modelled by `Option`; the pandas convention that
a comparison against a missing value on the right-hand side is unequal (NaN
semantics of `!=` on numeric columns) is modelled by `pandasNe`.
-/

namespace Rkbeets

/-! ## Join keys: `Libraries._df_beets` / `Libraries._df_rbxml` index construction

The join key is `path.decode('utf-8')` (beets side) resp. `'/' + Location`
(rekordbox side), then `.str.normalize('NFD')` and `.str.lower()`.
We model path characters by `PChar`: `ascii c` covers characters that are
NFD-stable and whose lower-casing is the ASCII one; the accented letters
`é` (U+00E9), `É` (U+00C9) and the combining acute accent (U+0301) - the
characters exercised by the spec's normalization example - are explicit
constructors with their real Unicode NFD decomposition and Python `str.lower`
behaviour. -/

inductive PChar where
  | ascii (c : Char)
  | eAcute
  | capEAcute
  | combAcute
deriving DecidableEq, Repr

/-- Fragment of Python `str.lower` on the modelled alphabet: ASCII characters
lower-case via `Char.toLower`; `É` lower-cases to `é`; the combining accent is
unchanged. -/
def pyLowerChar : PChar → PChar
  | .ascii c => .ascii c.toLower
  | .eAcute => .eAcute
  | .capEAcute => .eAcute
  | .combAcute => .combAcute

/-- Unicode canonical decomposition (NFD) of one modelled character:
`é ↦ e + ́ `, `É ↦ E + ́ `, everything else is NFD-stable. -/
def nfdChar : PChar → List PChar
  | .eAcute => [.ascii 'e', .combAcute]
  | .capEAcute => [.ascii 'E', .combAcute]
  | c => [c]

/-- Python `str.lower` over a modelled path. -/
def pyLower (s : List PChar) : List PChar := s.map pyLowerChar

/-- `unicodedata` NFD normalization over a modelled path
(pandas `.str.normalize('NFD')`). -/
def nfd (s : List PChar) : List PChar := s.flatMap nfdChar

/-- Rendering of a modelled character to the concrete character it stands for. -/
def renderChar : PChar → Char
  | .ascii c => c
  | .eAcute => 'é'
  | .capEAcute => 'É'
  | .combAcute => '́'

/-- Keys of the uniform tables: the pandas string index is a list of
characters. -/
abbrev Key := List Char

/-- Rendering of a modelled path to a key. -/
def render (s : List PChar) : Key := s.map renderChar

/-- Join key built by `Libraries._df_beets`:
`df['path'].str.decode('utf-8').str.normalize('NFD').str.lower()`
(decoding is the identity on the modelled character level). -/
def beetsKey (path : List PChar) : Key := render (pyLower (nfd path))

/-- Join key built by `Libraries._df_rbxml`: the leading slash stripped by
rekordbox is re-prepended (`df['Location'] = '/' + df['Location']`), then
`df['Location'].str.normalize('NFD').str.lower()`. -/
def rkbKey (location : List PChar) : Key :=
  render (pyLower (nfd (PChar.ascii '/' :: location)))

/-! ## Reconciler: `Libraries.crop` -/

/-- Fragment of Python `str.lower` used on the configured music directory in
`crop` (`music_directory.lower()`); the modelled directories are ASCII. -/
def asciiLower (k : Key) : Key := k.map Char.toLower

/-- Result of `Libraries.crop`: the joined common table and the two
one-sided path indexes. -/
structure ComputedLibraries (α β : Type) where
  df_common : List (α × β)
  only_beets : List Key
  only_rbxml : List Key

/-- The root filtering step of `crop`: when a music directory is configured
(Python truthiness: not `None` and not empty), restrict the rekordbox table to
rows whose key starts with the lower-cased directory
(`self._df_rbxml.index.str.startswith(music_directory.lower())`). -/
def filter_music_directory {β : Type} (keyB : β → Key) (dfRbxml : List β) :
    Option Key → List β
  | none => dfRbxml
  | some d =>
    if d = [] then dfRbxml
    else dfRbxml.filter (fun b => (asciiLower d).isPrefixOf (keyB b))

/-- `Libraries.crop(music_directory)`: filter the rekordbox table to the music
directory, take the index difference both ways
(`df_r.index.difference(self._df_beets.index)` and conversely), and join the
two tables over the index intersection
(`self._df_beets.loc[intersection].join(df_r.loc[intersection])`).
pandas `Index.difference`/`intersection` return unique values, modelled with
`List.dedup`+`filter` (pandas sorts these; none of the verified properties
depends on the order). `loc` over a list of unique keys keeps every row whose
key is listed, and the index join pairs each left row with each matching right
row, modelled by the nested `bind`. -/
def crop {α β : Type} (keyA : α → Key) (keyB : β → Key)
    (dfBeets : List α) (dfRbxml : List β) (music_directory : Option Key) :
    ComputedLibraries α β :=
  let df_r := filter_music_directory keyB dfRbxml music_directory
  let rIdx := (df_r.map keyB).dedup
  let bIdx := (dfBeets.map keyA).dedup
  let only_rbxml := rIdx.filter (fun k => decide (k ∉ bIdx))
  let only_beets := bIdx.filter (fun k => decide (k ∉ rIdx))
  let intersection := rIdx.filter (fun k => decide (k ∈ bIdx))
  let df_common := intersection.flatMap (fun k =>
    (dfBeets.filter (fun a => decide (keyA a = k))).flatMap (fun a =>
      (df_r.filter (fun b => decide (keyB b = k))).map (fun b => (a, b))))
  ⟨df_common, only_beets, only_rbxml⟩

/-! ## Sync differ: `Libraries.get_sync_changed`

The common table pairs a catalog row with a rekordbox row. The sync pairs
declared by the mapping table (`DimensionsDB.get_sync_pairs`) are indexed by
`Fin n`; the `i`-th sync pair selects the catalog-side column `b i` and the
rekordbox-side column `r i`. `V` is the scalar type of the synced columns, and
`d i` is the canonical zero value of the catalog column's dtype
(`df_common[cols.beets].dtype.type()`). -/

/-- One row of the catalog table (`_df_beets`), restricted to what the sync
differ reads: the stable beets `id`, the normalized path index, and the
columns selected by the sync pairs. -/
structure CatRow (n : ℕ) (V : Type) where
  id : Int
  path : Key
  b : Fin n → Option V

/-- One row of the rekordbox table (`_df_rbxml`), restricted to the normalized
`Location` index and the columns selected by the sync pairs. -/
structure RkbRow (n : ℕ) (V : Type) where
  loc : Key
  r : Fin n → Option V

/-- pandas `!=` between a non-missing left value and a possibly missing right
value: a missing value on the right compares unequal to everything (NaN
semantics of numeric columns, the dtypes of the synced fields). -/
def pandasNe {V : Type} [DecidableEq V] (l : V) (r : Option V) : Bool :=
  match r with
  | none => true
  | some v => decide (l ≠ v)

/-- The per-pair comparison `ne` of `get_sync_changed`:
`l.fillna(l.dtype.type()) != r` with `l` the catalog column and `r` the
rekordbox column of the `i`-th sync pair. -/
def syncNe {n : ℕ} {V : Type} [DecidableEq V] (d : Fin n → V) (i : Fin n)
    (p : CatRow n V × RkbRow n V) : Bool :=
  pandasNe ((p.1.b i).getD (d i)) (p.2.r i)

/-- `mask = reduce(operator.or_, compares)`: a row needs an update when any
sync pair differs. (The source applies `reduce` without an initial value, so
it presupposes at least one declared sync pair; theorems about the differ
carry `0 < n`.) -/
def sync_mask {n : ℕ} {V : Type} [DecidableEq V] (d : Fin n → V)
    (p : CatRow n V × RkbRow n V) : Bool :=
  (List.finRange n).any (fun i => syncNe d i p)

/-- `df_changed = df_common[mask]`. -/
def df_changed {n : ℕ} {V : Type} [DecidableEq V] (d : Fin n → V)
    (df_common : List (CatRow n V × RkbRow n V)) :
    List (CatRow n V × RkbRow n V) :=
  df_common.filter (sync_mask d)

/-- `Libraries.get_sync_changed`: the changed rows, re-indexed by the beets
`id` (`df_changed.set_index('id')`), one output column per sync pair holding
the rekordbox value with missing values filled by the catalog column's dtype
default (`df_changed[cols.rkb].fillna(default)`). -/
def get_sync_changed {n : ℕ} {V : Type} [DecidableEq V] (d : Fin n → V)
    (df_common : List (CatRow n V × RkbRow n V)) :
    List (Int × (Fin n → Option V)) :=
  (df_changed d df_common).map
    (fun p => (p.1.id, fun i => some ((p.2.r i).getD (d i))))

/-- Lookup of a change-set row by beets id, as done by
`item = lib.get_item(id)` against the change set. -/
def lookupId {n : ℕ} {V : Type}
    (cs : List (Int × (Fin n → Option V))) (i : Int) :
    Option (Fin n → Option V) :=
  (cs.find? (fun e => e.1 == i)).map (fun e => e.2)

/-- `item.update(data)` for one catalog record: when the change set has a row
for this record's id, overwrite the synced catalog fields with the change-set
values; otherwise the record is untouched. -/
def updateRow {n : ℕ} {V : Type}
    (cs : List (Int × (Fin n → Option V))) (a : CatRow n V) : CatRow n V :=
  match lookupId cs a.id with
  | some f => ⟨a.id, a.path, f⟩
  | none => a

/-- The `rkb-sync` update loop: every row of the change set is applied as a
field update to the catalog record with the matching id. -/
def applyChanges {n : ℕ} {V : Type} (dfBeets : List (CatRow n V))
    (cs : List (Int × (Fin n → Option V))) : List (CatRow n V) :=
  dfBeets.map (updateRow cs)

/-! ## Export projector: `DimensionsDB.get_export_conversion_info` and
`Libraries.get_export_df` -/

/-- A scalar cell of the export table: text or numeric. -/
inductive PVal where
  | str (s : String)
  | num (q : Int)
deriving DecidableEq, Repr

/-- One element of `export_fields`: the beets column to rename to the
rekordbox column, with the optional value transform. -/
structure ExportField where
  beets : String
  rkb : String
  func : Option (PVal → PVal)

/-- `format_to_kind` from `DimensionsDB.get_export_conversion_info`: a
dictionary lookup falling back to the input
(`mapping.get(format)` / `return kind if kind is not None else format`). -/
def format_to_kind (format : String) : String :=
  let mapping := [("AAC", "M4A File"), ("MP3", "MP3 File"), ("WAV", "WAV File")]
  match mapping.lookup format with
  | some kind => kind
  | none => format

/-- `format_to_kind` lifted to cells, as `Series.transform` applies it. -/
def format_to_kind_val : PVal → PVal
  | .str s => .str (format_to_kind s)
  | v => v

/-- `Libraries.get_export_df` on one catalog row (the row is an association
list of column name to possibly-missing cell):
1. drop the `no_export` columns (`df.drop(columns=export_info.drop_fields)`);
2. rename beets columns to rekordbox columns per `export_fields`
   (`df.rename(columns={row.beets: row.rkb for row in export_info.export_fields})`);
3. fill missing cells with the column dtype's default where the dtype has one
   (`df[field].fillna(value=value.type())`, skipped when `value.type() is None`);
4. the `Required conversions` loop iterates `export_info.export_fields` again -
   but that is the same generator object already exhausted by the rename dict
   comprehension in step 2, so the loop body never runs and no `func` is ever
   applied. The loop is therefore modelled as the identity. -/
def get_export_df_row (drop_fields : List String)
    (export_fields : List ExportField) (dtypeDefault : String → Option PVal)
    (row : List (String × Option PVal)) : List (String × Option PVal) :=
  let r1 := row.filter (fun kv => decide (kv.1 ∉ drop_fields))
  let rename := fun k =>
    match export_fields.find? (fun ef => ef.beets == k) with
    | some ef => ef.rkb
    | none => k
  let r2 := r1.map (fun kv => (rename kv.1, kv.2))
  let r3 := r2.map (fun kv =>
    match dtypeDefault kv.1 with
    | none => kv
    | some d0 => (kv.1, some (kv.2.getD d0)))
  r3

/-! ## Mapping-table loading: `DimensionsDB.__init__` -/

/-- One row of `rkbeets-fields.csv`, restricted to the field-correspondence
columns relevant to duplicate detection. -/
structure FieldsRow where
  beets_field : Option String
  rkb_field : Option String
deriving DecidableEq, Repr

/-- The index `pandas.read_csv` gives the mapping table: the default
`RangeIndex 0, 1, ..., len-1` (no `index_col` is passed). -/
def read_csv_index (rows : List FieldsRow) : List ℕ :=
  List.range rows.length

/-- `self._df.index.has_duplicates` for the freshly read mapping table. -/
def index_has_duplicates (rows : List FieldsRow) : Bool :=
  decide (¬ (read_csv_index rows).Nodup)

/-- `DimensionsDB.__init__`: read the csv and raise
`RuntimeError("rkbeets-fields contains duplicate columns between library types")`
when the index has duplicates, otherwise keep the table. -/
def dimensionsDB_load (rows : List FieldsRow) : Except String (List FieldsRow) :=
  if index_has_duplicates rows then
    .error "rkbeets-fields contains duplicate columns between library types"
  else
    .ok rows

/-! ## Sample-rate transform: `core._get_samplerate` -/

/-- `core._get_samplerate`:
`value = i.get('samplerate'); return None if value is None else value / 1000`
(Python true division, modelled over `ℚ`). -/
def get_samplerate_rb (value : Option ℚ) : Option ℚ :=
  match value with
  | none => none
  | some v => some (v / 1000)

/-! ## XML export writer: `export_df` -/

/-- One serialized track: the positional `location` argument and the keyword
attributes passed to `outxml.add_track`. -/
structure OutTrack where
  location : Key
  attrs : List (String × PVal)

/-- The body of the `export_df` writer loop for one row of the export table:
the `Location` cell is stripped of its leading slash
(`df['Location'].str.slice(1)`) and passed positionally; the remaining columns
(`df.drop(columns=['Location'])`) are passed as keyword attributes after
filtering out empty strings
(`**{ k: v for k, v in row._asdict().items() if v != '' }`). -/
def add_track_of_row (location : Key) (row : List (String × PVal)) : OutTrack :=
  { location := location.drop 1
    attrs := row.filter (fun kv => decide (kv.2 ≠ PVal.str "")) }

/-- `export_df`: render every row of the export table to a track, where each
row carries its `Location` and its remaining attribute columns. -/
def export_df (df : List (Key × List (String × PVal))) : List OutTrack :=
  df.map (fun rl => add_track_of_row rl.1 rl.2)

/-! ## Concrete tables used by counterexamples and witnesses -/

/-- Catalog table for the sync-idempotence counterexample: one record whose
synced field holds `5` while the rekordbox side is missing. -/
def cexA : List (CatRow 1 Int) := [⟨1, "/a.mp3".data, fun _ => some 5⟩]

/-- Rekordbox table for the sync-idempotence counterexample: the same path with
a missing value in the synced column. -/
def cexB : List (RkbRow 1 Int) := [⟨"/a.mp3".data, fun _ => none⟩]

/-- Catalog dtype default of the single synced column. -/
def cexD : Fin 1 → Int := fun _ => 0

/-- The change set computed on the second run, after the first change set has
been applied to the catalog. -/
def cexRerun : List (Int × (Fin 1 → Option Int)) :=
  get_sync_changed cexD
    ((crop CatRow.path RkbRow.loc
      (applyChanges cexA (get_sync_changed cexD
        ((crop CatRow.path RkbRow.loc cexA cexB none).df_common)))
      cexB none).df_common)

/-- External table with two rows sharing one path key (e.g. the same file
listed twice), used against the partition property. -/
def c2B : List Key := ["k".data, "k".data]

/-- Catalog table for the root-filter scenario of the claim. -/
def c9A : List Key := ["/music/a.mp3".data]

/-- External table for the root-filter scenario of the claim. -/
def c9B : List Key := ["/music/a.mp3".data, "/other/b.mp3".data]

/-- The export fields of the export-fill claim: `format` renames to `Kind`
with the `format_to_kind` transform, `rating` renames to `Rating`. -/
def c6ExportFields : List ExportField :=
  [⟨"format", "Kind", some format_to_kind_val⟩, ⟨"rating", "Rating", none⟩]

/-- Post-rename dtype defaults: text default for `Kind`, numeric zero for
`Rating`. -/
def c6DtypeDefault : String → Option PVal :=
  fun k => if k = "Kind" then some (.str "") else
    if k = "Rating" then some (.num 0) else none

/-- The catalog record of the export-fill claim: `format = "AAC"`, null
`rating`. -/
def c6Record : List (String × Option PVal) :=
  [("format", some (.str "AAC")), ("rating", none)]

/-- A mapping table with two rows both mapping catalog field `rating`, to
different external fields - the duplicate correspondence of the claim. -/
def c8DupRows : List FieldsRow :=
  [⟨some "rating", some "Rating"⟩, ⟨some "rating", some "PlayCount"⟩]

/-- Catalog table witnessing amended sync idempotence: one record whose synced
value 5 disagrees with the (present) external value. -/
def w1A : List (CatRow 1 Int) := [⟨1, "/a.mp3".data, fun _ => some 5⟩]

/-- External table witnessing amended sync idempotence: same path, synced
value 7. -/
def w1B : List (RkbRow 1 Int) := [⟨"/a.mp3".data, fun _ => some 7⟩]

/-- Catalog key table witnessing the amended partition property. -/
def w2A : List Key := ["/x/a.mp3".data]

/-- External key table witnessing the amended partition property. -/
def w2B : List Key := ["/x/a.mp3".data, "/x/b.mp3".data]

/-- The NFC-composed catalog path `"/Music/Café.mp3"` of the normalization
example (precomposed `é`, upper-case `M` and `C`). -/
def c3p : List PChar :=
  [.ascii '/', .ascii 'M', .ascii 'u', .ascii 's', .ascii 'i', .ascii 'c',
   .ascii '/', .ascii 'C', .ascii 'a', .ascii 'f', .eAcute,
   .ascii '.', .ascii 'm', .ascii 'p', .ascii '3']

/-- The NFD-decomposed external `Location` `"Music/Café.mp3"` (leading slash
already stripped by rekordbox, `e` followed by the combining acute accent). -/
def c3L : List PChar :=
  [.ascii 'M', .ascii 'u', .ascii 's', .ascii 'i', .ascii 'c',
   .ascii '/', .ascii 'C', .ascii 'a', .ascii 'f', .ascii 'e', .combAcute,
   .ascii '.', .ascii 'm', .ascii 'p', .ascii '3']

/-- A common-table row witnessing the sync inclusion criterion: null catalog
value against external value 3. -/
def w4p : CatRow 1 Int × RkbRow 1 Int :=
  (⟨1, "/a.mp3".data, fun _ => none⟩, ⟨"/a.mp3".data, fun _ => some 3⟩)

/-- A common-table row witnessing the change-set output contract: catalog
value 2 against a missing external value. -/
def w5p : CatRow 1 Int × RkbRow 1 Int :=
  (⟨7, "/b.mp3".data, fun _ => some 2⟩, ⟨"/b.mp3".data, fun _ => none⟩)

end Rkbeets

namespace Rkbeets

/-! ## Theorems -/

/-- Claim C6 (code bug): projecting the catalog record with `format = "AAC"`
and a null `rating` through `get_export_df` yields `Rating = 0` (the null is
filled with the numeric zero), but `Kind = "AAC"`, not `"M4A File"`: the
`Required conversions` loop of `get_export_df` re-iterates the
`export_fields` generator that the rename dict comprehension has already
exhausted, so `format_to_kind` - which does map `"AAC"` to `"M4A File"` - is
never applied, contradicting the function's own docstring ("Renames and
converts field values"). -/
theorem c6_export_fill_transform :
    get_export_df_row [] c6ExportFields c6DtypeDefault c6Record
      = [("Kind", some (.str "AAC")), ("Rating", some (.num 0))]
    ∧ format_to_kind "AAC" = "M4A File"
    ∧ format_to_kind "MP3" = "MP3 File"
    ∧ format_to_kind "WAV" = "WAV File"
    ∧ format_to_kind "FLAC" = "FLAC" := by
  refine ⟨?_, rfl, rfl, rfl, rfl⟩
  decide

/-- Claim C7 (code bug): `core._get_samplerate` divides the catalog
sample-rate value by 1000 instead of multiplying: on input 44100 it returns
44.1, not 44100000, contradicting its own comment
(`# Beets is in kHz, RB in Hz`, which calls for kHz→Hz, i.e. x1000). -/
theorem c7_samplerate_division :
    get_samplerate_rb (some 44100) = some (441 / 10)
    ∧ (441 / 10 : ℚ) ≠ 44100 * 1000 := by
  constructor
  · show some ((44100 : ℚ) / 1000) = some (441 / 10)
    norm_num
  · norm_num

/-- Claim C8 (code bug): `DimensionsDB.__init__` never rejects duplicate field
correspondences: its check tests `self._df.index.has_duplicates`, but the
index of a freshly `read_csv`-loaded table is the default `RangeIndex`, which
never has duplicates. Loading a table with two rows both mapping catalog
field `rating` (to different external fields) succeeds, and in fact every
table loads successfully - the guard is dead code (the source even carries a
`TODO test this works` comment on it). -/
theorem c8_duplicate_mapping_accepted :
    dimensionsDB_load c8DupRows = Except.ok c8DupRows
    ∧ (c8DupRows.map FieldsRow.beets_field)
        = [some "rating", some "rating"]
    ∧ ∀ rows : List FieldsRow, dimensionsDB_load rows = Except.ok rows := by
  refine ⟨?_, rfl, ?_⟩
  · rfl
  · intro rows
    unfold dimensionsDB_load index_has_duplicates read_csv_index
    simp [List.nodup_range]

/-- Claim C10 (implicit): every attribute of a track written by `export_df`
comes from a column of the row whose value is not the empty string, and every
such non-empty column is passed through: the kwargs comprehension
`{ k: v for k, v in row._asdict().items() if v != '' }` filters exactly the
empty-string values, so an empty-string column is absent from the serialized
record rather than present with a default. -/
theorem c10_empty_strings_omitted (loc : Key) (row : List (String × PVal))
    (k : String) (v : PVal) (df : List (Key × List (String × PVal))) :
    ((k, v) ∈ (add_track_of_row loc row).attrs ↔ ((k, v) ∈ row ∧ v ≠ PVal.str ""))
    ∧ export_df df = df.map (fun rl => add_track_of_row rl.1 rl.2)
    ∧ (add_track_of_row loc row).location = loc.drop 1 := by
  refine ⟨?_, rfl, rfl⟩
  simp [add_track_of_row, List.mem_filter]

/-! ### Shared helper lemmas -/

theorem length_filter_add_length_filter_not {α : Type} (p : α → Bool)
    (l : List α) :
    (l.filter p).length + (l.filter (fun a => !p a)).length = l.length := by
  induction l with
  | nil => rfl
  | cons a t ih =>
    cases h : p a <;> simp [List.filter_cons, h] <;> omega

theorem map_sum_ones {α : Type} (f : α → ℕ) (l : List α)
    (h : ∀ x ∈ l, f x = 1) : (l.map f).sum = l.length := by
  induction l with
  | nil => rfl
  | cons a t ih =>
    simp only [List.map_cons, List.sum_cons, List.length_cons,
      h a (List.mem_cons_self a t),
      ih (fun x hx => h x (List.mem_cons_of_mem a hx))]
    omega

theorem filter_key_length_one {α : Type} (keyA : α → Key) (A : List α)
    (hA : (A.map keyA).Nodup) (k : Key) (hk : k ∈ A.map keyA) :
    (A.filter (fun a => decide (keyA a = k))).length = 1 := by
  induction A with
  | nil => simp at hk
  | cons a t ih =>
    simp only [List.map_cons, List.nodup_cons] at hA
    rcases hA with ⟨hnot, hnd⟩
    by_cases hak : keyA a = k
    · have ht : t.filter (fun x => decide (keyA x = k)) = [] := by
        rw [List.filter_eq_nil_iff]
        intro x hx hcontra
        simp only [decide_eq_true_eq] at hcontra
        exact hnot (hak ▸ hcontra ▸ List.mem_map_of_mem keyA hx)
      simp [List.filter_cons, hak, ht]
    · have hk' : k ∈ t.map keyA := by
        rcases List.mem_cons.1 hk with h | h
        · exact absurd h.symm hak
        · exact h
      simp [List.filter_cons, hak, ih hnd hk']

theorem nodup_map_key_of_filter_music_directory {β : Type} (keyB : β → Key)
    (B : List β) (md : Option Key) (hB : (B.map keyB).Nodup) :
    ((filter_music_directory keyB B md).map keyB).Nodup := by
  have hsub : List.Sublist (filter_music_directory keyB B md) B := by
    cases md with
    | none => exact List.Sublist.refl B
    | some d =>
      by_cases hd : d = []
      · simp [filter_music_directory, hd]
      · simp only [filter_music_directory, if_neg hd]
        exact List.filter_sublist B
  exact hB.sublist (hsub.map keyB)

theorem key_not_mem_filtered_map {β : Type} (keyB : β → Key) (B : List β)
    (root : Key) (b : β) (hroot : root ≠ [])
    (hout : (asciiLower root).isPrefixOf (keyB b) = false) :
    keyB b ∉ (filter_music_directory keyB B (some root)).map keyB := by
  intro hmem
  rcases List.mem_map.1 hmem with ⟨b', hb', heq⟩
  simp only [filter_music_directory, if_neg hroot] at hb'
  have := List.of_mem_filter hb'
  rw [heq, hout] at this
  exact Bool.false_ne_true this

/-! ### Counterexamples -/

/-- Claim C1 counterexample: with catalog table `cexA` (one record, synced
value 5) and external table `cexB` (same path, missing synced value), the
change set replaces the catalog value by the dtype default 0, but re-running
`crop` and `get_sync_changed` on the updated catalog still yields a non-empty
change set: `0 != NaN` keeps being true, so the record is flagged on every
run. The claim's idempotence fails when the external source has a missing
value in a synced column. -/
theorem c1_counterexample : cexRerun ≠ [] := by
  have hl : cexRerun.length = 1 := by decide
  intro h
  rw [h] at hl
  simp at hl

/-- Claim C2 counterexample: with an empty catalog table and the external
table `c2B` holding two rows with the same path key, `crop` reports
`df_common.size + only_rbxml.size = 0 + 1 = 1`, but the (unfiltered) external
table has 2 rows: `Index.difference` deduplicates keys, so the partition
property fails for tables with duplicate join keys. -/
theorem c2_counterexample :
    ¬ (((crop (fun k : Key => k) (fun k => k) [] c2B none).df_common.length
          + (crop (fun k : Key => k) (fun k => k) [] c2B none).only_rbxml.length
          = (filter_music_directory (fun k : Key => k) c2B none).length)
        ∧ ((crop (fun k : Key => k) (fun k => k) [] c2B none).df_common.length
          + (crop (fun k : Key => k) (fun k => k) [] c2B none).only_beets.length
          = ([] : List Key).length)) := by
  decide

/-- Claim C9 counterexample: with catalog `{"/other/b.mp3"}`, external
`{"/other/b.mp3"}` and root `"/music"`, the external row is outside the root
(its key does not start with the case-folded root), yet its key appears in
`only_beets` (= `only_catalog`): the root filter removes the matching external
row, so the shared path is reported as only-in-catalog. The out-of-root
external row is therefore not excluded from all three output sets. -/
theorem c9_counterexample :
    (asciiLower "/music".data).isPrefixOf "/other/b.mp3".data = false
    ∧ "/other/b.mp3".data ∈
        (crop (fun k : Key => k) (fun k => k)
          ["/other/b.mp3".data] ["/other/b.mp3".data]
          (some "/music".data)).only_beets := by
  decide

/-! ### Amended claims -/

/-- Claim C2 (amended): the partition property
`common.size + only_external.size = filtered(B).size` and
`common.size + only_catalog.size = A.size` holds for all catalog and external
tables whose join keys are duplicate-free (one row per normalized path on
each side). -/
theorem c2_partition_amended {α β : Type} (keyA : α → Key) (keyB : β → Key)
    (A : List α) (B : List β) (md : Option Key)
    (hA : (A.map keyA).Nodup) (hB : (B.map keyB).Nodup) :
    (crop keyA keyB A B md).df_common.length
      + (crop keyA keyB A B md).only_rbxml.length
      = (filter_music_directory keyB B md).length
    ∧ (crop keyA keyB A B md).df_common.length
      + (crop keyA keyB A B md).only_beets.length
      = A.length := by
  have hF : ((filter_music_directory keyB B md).map keyB).Nodup :=
    nodup_map_key_of_filter_music_directory keyB B md hB
  simp only [crop]
  set F := filter_music_directory keyB B md with hFdef
  rw [List.dedup_eq_self.2 hF, List.dedup_eq_self.2 hA]
  set rIdx := F.map keyB with hrIdx
  set bIdx := A.map keyA with hbIdx
  have hcommon :
      ((rIdx.filter (fun k => decide (k ∈ bIdx))).flatMap (fun k =>
        (A.filter (fun a => decide (keyA a = k))).flatMap (fun a =>
          (F.filter (fun b => decide (keyB b = k))).map (fun b => (a, b))))).length
      = (rIdx.filter (fun k => decide (k ∈ bIdx))).length := by
    rw [List.length_flatMap]
    apply map_sum_ones
    intro k hkmem
    rcases List.mem_filter.1 hkmem with ⟨hkr, hkb⟩
    rw [decide_eq_true_eq] at hkb
    simp only [Function.comp_apply]
    rw [List.length_flatMap]
    have hinner : ∀ a ∈ A.filter (fun a => decide (keyA a = k)),
        ((F.filter (fun b => decide (keyB b = k))).map (fun b => (a, b))).length = 1 := by
      intro a _
      rw [List.length_map]
      exact filter_key_length_one keyB F hF k hkr
    calc ((A.filter (fun a => decide (keyA a = k))).map
            (List.length ∘ fun a => (F.filter (fun b => decide (keyB b = k))).map (fun b => (a, b)))).sum
        = (A.filter (fun a => decide (keyA a = k))).length :=
          map_sum_ones _ _ (fun a ha => hinner a ha)
      _ = 1 := filter_key_length_one keyA A hA k hkb
  constructor
  · rw [hcommon]
    have hnot : ∀ k, decide (k ∉ bIdx) = !decide (k ∈ bIdx) := by
      intro k; simp
    rw [List.filter_congr (fun k _ => hnot k)]
    rw [length_filter_add_length_filter_not]
    rw [hrIdx, List.length_map]
  · rw [hcommon]
    have hswap : (rIdx.filter (fun k => decide (k ∈ bIdx))).length
        = (bIdx.filter (fun k => decide (k ∈ rIdx))).length := by
      have h₁ : (rIdx.filter (fun k => decide (k ∈ bIdx))).toFinset
          = rIdx.toFinset ∩ bIdx.toFinset := by
        ext x
        simp [List.mem_filter, List.mem_toFinset]
      have h₂ : (bIdx.filter (fun k => decide (k ∈ rIdx))).toFinset
          = bIdx.toFinset ∩ rIdx.toFinset := by
        ext x
        simp [List.mem_filter, List.mem_toFinset]
      rw [← List.toFinset_card_of_nodup (hF.filter _),
        ← List.toFinset_card_of_nodup (hA.filter _), h₁, h₂,
        Finset.inter_comm]
    rw [hswap]
    have hnot : ∀ k, decide (k ∉ rIdx) = !decide (k ∈ rIdx) := by
      intro k; simp
    rw [List.filter_congr (fun k _ => hnot k)]
    rw [length_filter_add_length_filter_not]
    rw [hbIdx, List.length_map]

/-- Claim C9 (amended): an external row whose (case-folded) key does not start
with the case-folded root path is excluded from `only_rbxml` and contributes
no row to `df_common`; the claim's concrete scenario holds (with catalog
`{"/music/a.mp3"}`, external `{"/music/a.mp3", "/other/b.mp3"}` and root
`"/music"`, `only_rbxml` is empty, `df_common` has exactly one row, and
`only_beets` is empty). The row's key is however not always excluded from
`only_beets` (= `only_catalog`): when the catalog contains the same
out-of-root path, the key is reported there (see the counterexample). -/
theorem c9_root_filter_amended {α β : Type} (keyA : α → Key) (keyB : β → Key)
    (A : List α) (B : List β) (root : Key) (b : β)
    (hb : b ∈ B) (hroot : root ≠ [])
    (hout : (asciiLower root).isPrefixOf (keyB b) = false) :
    keyB b ∉ (crop keyA keyB A B (some root)).only_rbxml
    ∧ (∀ p ∈ (crop keyA keyB A B (some root)).df_common, keyB p.2 ≠ keyB b)
    ∧ (crop (fun k : Key => k) (fun k => k) c9A c9B
        (some "/music".data)).only_rbxml = []
    ∧ (crop (fun k : Key => k) (fun k => k) c9A c9B
        (some "/music".data)).df_common.length = 1
    ∧ (crop (fun k : Key => k) (fun k => k) c9A c9B
        (some "/music".data)).only_beets = [] := by
  have hnotmem := key_not_mem_filtered_map keyB B root b hroot hout
  refine ⟨?_, ?_, by decide, by decide, by decide⟩
  · intro hmem
    simp only [crop] at hmem
    rcases List.mem_filter.1 hmem with ⟨hkr, _⟩
    exact hnotmem (List.mem_dedup.1 hkr)
  · intro p hp heq
    simp only [crop] at hp
    rcases List.mem_flatMap.1 hp with ⟨k, hk, hpin⟩
    rcases List.mem_filter.1 hk with ⟨hkr, _⟩
    rcases List.mem_flatMap.1 hpin with ⟨a, _, hpmap⟩
    rcases List.mem_map.1 hpmap with ⟨b', hb', hpeq⟩
    have hkey : keyB p.2 = k := by
      have := List.of_mem_filter hb'
      rw [decide_eq_true_eq] at this
      rw [← hpeq]
      exact this
    apply hnotmem
    rw [← heq, hkey]
    exact List.mem_dedup.1 hkr

/-! ### Confirmed claims about the sync differ -/

/-- Claim C4: a row of the common table is included in `df_changed` exactly
when at least one declared sync pair differs for it (logical OR across the
pairs), where a null catalog-side value is replaced by the catalog column's
canonical zero before the comparison: with a null catalog field, the
comparison is even (excludes the row's pair) precisely when the external side
holds exactly the zero value, and is uneven for any other external value. -/
theorem c4_sync_row_inclusion {n : ℕ} {V : Type} [DecidableEq V]
    (d : Fin n → V) (df_common : List (CatRow n V × RkbRow n V))
    (p : CatRow n V × RkbRow n V) (hn : 0 < n) :
    (p ∈ df_changed d df_common ↔ p ∈ df_common ∧ ∃ i, syncNe d i p = true)
    ∧ (∀ i, p.1.b i = none → ((syncNe d i p = false) ↔ p.2.r i = some (d i))) := by
  constructor
  · simp [df_changed, List.mem_filter, sync_mask, List.any_eq_true]
  · intro i hnone
    simp only [syncNe, hnone, Option.getD_none]
    cases hri : p.2.r i with
    | none => simp [pandasNe]
    | some v =>
      simp only [pandasNe, decide_eq_false_iff_not, not_not,
        Option.some.injEq]
      exact ⟨fun h => h.symm, fun h => h.symm⟩

/-- Claim C5: the change set emitted by `get_sync_changed` is indexed by the
catalog record's integer id; each entry comes from a common-table row with at
least one differing sync pair, carries for every sync pair the external
side's value with nulls filled by the catalog column's dtype default, and no
emitted value is null; conversely every flagged common row contributes its
entry. -/
theorem c5_changeset_contract {n : ℕ} {V : Type} [DecidableEq V]
    (d : Fin n → V) (df_common : List (CatRow n V × RkbRow n V))
    (hn : 0 < n) :
    (∀ e ∈ get_sync_changed d df_common, ∃ p, p ∈ df_common
        ∧ sync_mask d p = true ∧ e.1 = p.1.id
        ∧ ∀ i, e.2 i = some ((p.2.r i).getD (d i)))
    ∧ (∀ p ∈ df_common, sync_mask d p = true →
        (p.1.id, fun i => some ((p.2.r i).getD (d i)))
          ∈ get_sync_changed d df_common)
    ∧ (∀ e ∈ get_sync_changed d df_common, ∀ i, e.2 i ≠ none) := by
  refine ⟨?_, ?_, ?_⟩
  · intro e he
    simp only [get_sync_changed, df_changed] at he
    rcases List.mem_map.1 he with ⟨p, hp, he'⟩
    refine ⟨p, List.mem_of_mem_filter hp, List.of_mem_filter hp, ?_, ?_⟩
    · rw [← he']
    · intro i
      rw [← he']
  · intro p hp hmask
    simp only [get_sync_changed, df_changed]
    exact List.mem_map_of_mem _ (List.mem_filter.2 ⟨hp, hmask⟩)
  · intro e he i
    simp only [get_sync_changed, df_changed] at he
    rcases List.mem_map.1 he with ⟨p, _, he'⟩
    rw [← he']
    simp

/-! ### Path normalization -/

theorem pyLowerChar_nfdChar (c : PChar) :
    nfdChar (pyLowerChar c) = (nfdChar c).map pyLowerChar := by
  cases c with
  | ascii a => rfl
  | eAcute => decide
  | capEAcute => decide
  | combAcute => decide

/-- Lower-casing commutes with NFD decomposition on the modelled alphabet. -/
theorem pyLower_nfd (s : List PChar) : pyLower (nfd s) = nfd (pyLower s) := by
  induction s with
  | nil => rfl
  | cons c t ih =>
    simp only [pyLower, nfd, List.flatMap_cons, List.map_cons,
      List.map_append] at *
    rw [← pyLowerChar_nfdChar c, ih]

/-- `crop` on two singleton tables with the same key joins them into one
common row and leaves both difference sets empty. -/
theorem crop_singleton_common {α β : Type} (keyA : α → Key) (keyB : β → Key)
    (a : α) (b : β) (h : keyA a = keyB b) :
    (crop keyA keyB [a] [b] none).df_common = [(a, b)]
    ∧ (crop keyA keyB [a] [b] none).only_beets = []
    ∧ (crop keyA keyB [a] [b] none).only_rbxml = [] := by
  refine ⟨?_, ?_, ?_⟩ <;>
    simp [crop, filter_music_directory, h, List.filter_cons]

/-- Claim C3: a catalog record and an external record whose filesystem paths
differ only by Unicode normalization form or by letter case (their
case-folded NFD forms agree, with the rekordbox location taken after the
stripped leading slash is restored) are assigned the same join key by the two
record loaders, and `crop` consequently matches them as one common track. -/
theorem c3_normalization_join {n : ℕ} {V : Type} (p L : List PChar)
    (idv : Int) (f g : Fin n → Option V)
    (hsame : nfd (pyLower p) = nfd (pyLower (PChar.ascii '/' :: L))) :
    beetsKey p = rkbKey L
    ∧ (crop CatRow.path RkbRow.loc
        [(⟨idv, beetsKey p, f⟩ : CatRow n V)]
        [(⟨rkbKey L, g⟩ : RkbRow n V)] none).df_common
      = [(⟨idv, beetsKey p, f⟩, ⟨rkbKey L, g⟩)]
    ∧ (crop CatRow.path RkbRow.loc
        [(⟨idv, beetsKey p, f⟩ : CatRow n V)]
        [(⟨rkbKey L, g⟩ : RkbRow n V)] none).only_beets = []
    ∧ (crop CatRow.path RkbRow.loc
        [(⟨idv, beetsKey p, f⟩ : CatRow n V)]
        [(⟨rkbKey L, g⟩ : RkbRow n V)] none).only_rbxml = [] := by
  have hkey : beetsKey p = rkbKey L := by
    unfold beetsKey rkbKey
    rw [pyLower_nfd, hsame, ← pyLower_nfd]
  have hc := crop_singleton_common CatRow.path RkbRow.loc
    (⟨idv, beetsKey p, f⟩ : CatRow n V) (⟨rkbKey L, g⟩ : RkbRow n V) hkey
  exact ⟨hkey, hc.1, hc.2.1, hc.2.2⟩

/-! ### Sync idempotence -/

/-- Transporting a key-preserving function over the catalog table through
`crop`: the common table is the original common table with the function
applied to every catalog-side row. -/
theorem crop_df_common_map_left {α β : Type} (keyA : α → Key)
    (keyB : β → Key) (g : α → α) (hg : ∀ a, keyA (g a) = keyA a)
    (A : List α) (B : List β) (md : Option Key) :
    (crop keyA keyB (A.map g) B md).df_common
      = (crop keyA keyB A B md).df_common.map (fun p => (g p.1, p.2)) := by
  simp only [crop]
  have hbIdx : (A.map g).map keyA = A.map keyA := by
    rw [List.map_map]
    exact List.map_congr_left (fun a _ => hg a)
  rw [hbIdx, List.map_flatMap]
  refine congrArg _ (funext fun k => ?_)
  rw [List.filter_map, List.flatMap_map, List.map_flatMap]
  have hfilter : A.filter ((fun a => decide (keyA a = k)) ∘ g)
      = A.filter (fun a => decide (keyA a = k)) :=
    List.filter_congr (fun a _ => by simp only [Function.comp_apply, hg a])
  rw [hfilter]
  refine congrArg _ (funext fun a => ?_)
  rw [List.map_map]
  rfl

/-- Claim C1 (amended): sync is idempotent provided the common table carries
no null external value in a synced column and its catalog ids are pairwise
distinct (so that "the corresponding catalog record (by id)" is
well-defined): computing the change set over `crop(A,B).common`, applying
every row as a field update to the catalog record with the matching id, and
re-running `crop` and `get_sync_changed` against the unchanged external
table yields an empty change set. (The null-value proviso is forced by the
counterexample: `field != NaN` is true for every value, so a row with a
missing external value is re-flagged forever.) -/
theorem c1_sync_idempotent_amended {n : ℕ} {V : Type} [DecidableEq V]
    (d : Fin n → V) (A : List (CatRow n V)) (B : List (RkbRow n V))
    (md : Option Key) (hn : 0 < n)
    (hids : (((crop CatRow.path RkbRow.loc A B md).df_common).map
      (fun p => p.1.id)).Nodup)
    (hr : ∀ p ∈ (crop CatRow.path RkbRow.loc A B md).df_common,
      ∀ i, p.2.r i ≠ none) :
    get_sync_changed d ((crop CatRow.path RkbRow.loc
      (applyChanges A (get_sync_changed d
        ((crop CatRow.path RkbRow.loc A B md).df_common)))
      B md).df_common) = [] := by
  set common := (crop CatRow.path RkbRow.loc A B md).df_common with hcommon
  set cs := get_sync_changed d common with hcs
  have hpath : ∀ a : CatRow n V, CatRow.path (updateRow cs a) = CatRow.path a := by
    intro a
    unfold updateRow
    cases lookupId cs a.id <;> rfl
  have hmap : (crop CatRow.path RkbRow.loc (applyChanges A cs) B md).df_common
      = common.map (fun p => (updateRow cs p.1, p.2)) := by
    rw [show applyChanges A cs = A.map (updateRow cs) from rfl]
    rw [crop_df_common_map_left CatRow.path RkbRow.loc (updateRow cs) hpath A B md]
  rw [hmap]
  simp only [get_sync_changed, df_changed]
  rw [List.map_eq_nil_iff, List.filter_eq_nil_iff]
  intro q hq
  rcases List.mem_map.1 hq with ⟨p, hp, rfl⟩
  rw [Bool.not_eq_true]
  cases hlook : lookupId cs p.1.id with
  | some f =>
    have hupd : updateRow cs p.1 = ⟨p.1.id, p.1.path, f⟩ := by
      unfold updateRow
      rw [hlook]
    have hfind : (cs.find? (fun e => e.1 == p.1.id)).map (fun e => e.2) = some f := hlook
    rcases Option.map_eq_some'.1 hfind with ⟨e, hfe, hef⟩
    have hemem : e ∈ cs := List.mem_of_find?_eq_some hfe
    rw [hcs] at hemem
    simp only [get_sync_changed, df_changed] at hemem
    rcases List.mem_map.1 hemem with ⟨p₀, hp₀, hep⟩
    have hp₀mem : p₀ ∈ common := List.mem_of_mem_filter hp₀
    have heqid : p₀.1.id = p.1.id := by
      have h₁ : e.1 = p₀.1.id := by rw [← hep]
      have hbeq := List.find?_some hfe
      rw [← h₁]
      exact eq_of_beq hbeq
    have hpp : p₀ = p :=
      List.inj_on_of_nodup_map hids hp₀mem hp heqid
    have hfval : f = fun i => some ((p.2.r i).getD (d i)) := by
      rw [← hef, ← hep, hpp]
    rw [hupd, sync_mask, List.any_eq_false]
    intro i _
    rw [Bool.not_eq_true]
    have hrp := hr p hp i
    rcases Option.ne_none_iff_exists'.1 hrp with ⟨w, hw⟩
    show pandasNe ((f i).getD (d i)) (p.2.r i) = false
    rw [hfval, hw]
    simp [pandasNe, hw]
  | none =>
    have hupd : updateRow cs p.1 = p.1 := by
      unfold updateRow
      rw [hlook]
    rw [hupd]
    show sync_mask d p = false
    by_contra hmask
    rw [Bool.not_eq_false] at hmask
    have hmem : (p.1.id, fun i => some ((p.2.r i).getD (d i))) ∈ cs := by
      rw [hcs]
      simp only [get_sync_changed, df_changed]
      exact List.mem_map_of_mem _ (List.mem_filter.2 ⟨hp, hmask⟩)
    have hnone : cs.find? (fun e => e.1 == p.1.id) = none :=
      Option.map_eq_none'.1 hlook
    have := List.find?_eq_none.1 hnone _ hmem
    simp at this

/-! ### Witnesses -/

/-- Witness for the amended sync idempotence at the concrete tables `w1A` and
`w1B`. -/
theorem c1_witness :
    (0 : ℕ) < 1
    ∧ (((crop CatRow.path RkbRow.loc w1A w1B none).df_common).map
        (fun p => p.1.id)).Nodup
    ∧ (∀ p ∈ (crop CatRow.path RkbRow.loc w1A w1B none).df_common,
        ∀ i, p.2.r i ≠ none)
    ∧ get_sync_changed cexD ((crop CatRow.path RkbRow.loc
        (applyChanges w1A (get_sync_changed cexD
          ((crop CatRow.path RkbRow.loc w1A w1B none).df_common)))
        w1B none).df_common) = [] :=
  ⟨by decide, by decide, by decide,
    c1_sync_idempotent_amended cexD w1A w1B none (by decide) (by decide)
      (by decide)⟩

/-- Witness for the amended partition property at the concrete key tables
`w2A` and `w2B`. -/
theorem c2_witness :
    ((w2A.map (fun k : Key => k)).Nodup ∧ (w2B.map (fun k : Key => k)).Nodup)
    ∧ ((crop (fun k : Key => k) (fun k => k) w2A w2B none).df_common.length
        + (crop (fun k : Key => k) (fun k => k) w2A w2B none).only_rbxml.length
        = (filter_music_directory (fun k : Key => k) w2B none).length
      ∧ (crop (fun k : Key => k) (fun k => k) w2A w2B none).df_common.length
        + (crop (fun k : Key => k) (fun k => k) w2A w2B none).only_beets.length
        = w2A.length) :=
  ⟨⟨by decide, by decide⟩,
    c2_partition_amended (fun k => k) (fun k => k) w2A w2B none
      (by decide) (by decide)⟩

/-- Witness for the normalization claim at the NFC catalog path `c3p` and the
NFD external location `c3L`. -/
theorem c3_witness :
    nfd (pyLower c3p) = nfd (pyLower (PChar.ascii '/' :: c3L))
    ∧ (beetsKey c3p = rkbKey c3L
      ∧ (crop CatRow.path RkbRow.loc
          [(⟨1, beetsKey c3p, fun _ => none⟩ : CatRow 1 Int)]
          [(⟨rkbKey c3L, fun _ => none⟩ : RkbRow 1 Int)] none).df_common
        = [(⟨1, beetsKey c3p, fun _ => none⟩, ⟨rkbKey c3L, fun _ => none⟩)]
      ∧ (crop CatRow.path RkbRow.loc
          [(⟨1, beetsKey c3p, fun _ => none⟩ : CatRow 1 Int)]
          [(⟨rkbKey c3L, fun _ => none⟩ : RkbRow 1 Int)] none).only_beets = []
      ∧ (crop CatRow.path RkbRow.loc
          [(⟨1, beetsKey c3p, fun _ => none⟩ : CatRow 1 Int)]
          [(⟨rkbKey c3L, fun _ => none⟩ : RkbRow 1 Int)] none).only_rbxml
        = []) :=
  ⟨by decide,
    c3_normalization_join c3p c3L 1 (fun _ => none) (fun _ => none)
      (by decide)⟩

/-- Witness for the sync row-inclusion criterion at the concrete common row
`w4p`. -/
theorem c4_witness :
    (0 : ℕ) < 1
    ∧ ((w4p ∈ df_changed cexD [w4p]
        ↔ w4p ∈ [w4p] ∧ ∃ i, syncNe cexD i w4p = true)
      ∧ (∀ i, w4p.1.b i = none →
          ((syncNe cexD i w4p = false) ↔ w4p.2.r i = some (cexD i)))) :=
  ⟨by decide, c4_sync_row_inclusion cexD [w4p] w4p (by decide)⟩

/-- Witness for the change-set output contract at the concrete common row
`w5p`. -/
theorem c5_witness :
    (0 : ℕ) < 1
    ∧ ((∀ e ∈ get_sync_changed cexD [w5p], ∃ p, p ∈ [w5p]
          ∧ sync_mask cexD p = true ∧ e.1 = p.1.id
          ∧ ∀ i, e.2 i = some ((p.2.r i).getD (cexD i)))
      ∧ (∀ p ∈ [w5p], sync_mask cexD p = true →
          (p.1.id, fun i => some ((p.2.r i).getD (cexD i)))
            ∈ get_sync_changed cexD [w5p])
      ∧ (∀ e ∈ get_sync_changed cexD [w5p], ∀ i, e.2 i ≠ none)) :=
  ⟨by decide, c5_changeset_contract cexD [w5p] (by decide)⟩

/-- Witness for the amended root-filter exclusion at the out-of-root external
row `"/other/b.mp3"` against the claim's concrete scenario tables. -/
theorem c9_witness :
    ("/other/b.mp3".data ∈ (["/other/b.mp3".data] : List Key)
      ∧ "/music".data ≠ ([] : Key)
      ∧ (asciiLower "/music".data).isPrefixOf "/other/b.mp3".data = false)
    ∧ ("/other/b.mp3".data ∉
        (crop (fun k : Key => k) (fun k => k) c9A ["/other/b.mp3".data]
          (some "/music".data)).only_rbxml
      ∧ (∀ p ∈ (crop (fun k : Key => k) (fun k => k) c9A
            ["/other/b.mp3".data] (some "/music".data)).df_common,
          (fun k : Key => k) p.2 ≠ "/other/b.mp3".data)
      ∧ (crop (fun k : Key => k) (fun k => k) c9A c9B
          (some "/music".data)).only_rbxml = []
      ∧ (crop (fun k : Key => k) (fun k => k) c9A c9B
          (some "/music".data)).df_common.length = 1
      ∧ (crop (fun k : Key => k) (fun k => k) c9A c9B
          (some "/music".data)).only_beets = []) :=
  ⟨⟨by decide, by decide, by decide⟩,
    c9_root_filter_amended (fun k => k) (fun k => k) c9A ["/other/b.mp3".data]
      "/music".data "/other/b.mp3".data (by decide) (by decide) (by decide)⟩

end Rkbeets
